import Mathlib

/-
Shallow embedding of the unified memory manager of the Hacker-Lang
repository (source file gc.c): a generational mark-sweep collector
(young bump-pointer nursery, old intrusive list) and an independent
chunked arena allocator with reset and savepoint/restore.

Bytes and sizes are modelled as Nat.  The C macro
ALIGN_UP(n, a) = ((n + a - 1) & ~(a - 1)) is used only with power-of-two
alignments, where it equals rounding n up to a multiple of a; we model it
by clearing the low remainder of n + a - 1.  OS allocation (malloc/mmap)
success is modelled by explicit Boolean oracles: a List Bool consumed one
entry per allocation attempt (exhaustion of the list means success), or a
single Bool for functions performing at most one attempt.
-/

namespace HackerLang

/-- ALIGN_UP macro of gc.c, for power-of-two alignment a: round n up to a
multiple of a. -/
def ALIGN_UP (n a : Nat) : Nat := (n + a - 1) - (n + a - 1) % a

/-- SLAB_ALIGN of gc.c. -/
def SLAB_ALIGN : Nat := 8

/-- YOUNG_SIZE of gc.c: capacity of the nursery in bytes. -/
def YOUNG_SIZE : Nat := 64 * 1024

/-- OLD_THRESHOLD of gc.c: old-generation byte usage that triggers a major
collection from gc_sweep. -/
def OLD_THRESHOLD : Nat := 2 * 1024 * 1024

/-- TENURING_AGE of gc.c: number of survived minor collections after which
a young object is promoted. -/
def TENURING_AGE : Nat := 2

/-- Size of the GcHeader struct of gc.c on a 64-bit target:
uint32 size + four uint8 fields + a pointer = 16 bytes. -/
def HDR_SIZE : Nat := 16

/-- One GC object: the GcHeader fields that matter to the model plus its
payload bytes.  The generation tag is represented by which list the object
lives in (nursery or old list); the intrusive next pointer is the list
structure itself. -/
structure GcObj where
  size : Nat
  payload : List Nat
  age : Nat
  marked : Bool
deriving Repr, DecidableEq

/-- The global state of the GC of gc.c: the nursery contents in address
order (young_slab up to young_top), the old list in link order
(old_list head first), and the counters. -/
structure GcState where
  nursery : List GcObj
  old_list : List GcObj
  old_used : Nat
  old_allocs : Nat
  minor_count : Nat
  major_count : Nat
  promoted : Nat
  collected_young : Nat
  collected_old : Nat
  total_allocs : Nat
deriving Repr, DecidableEq

/-- Bytes occupied by a list of GC objects, header included: the quantity
young_top - young_slab for the nursery, and the quantity tracked by
old_used for old nodes. -/
def heapBytes (l : List GcObj) : Nat := (l.map (fun o => HDR_SIZE + o.size)).sum

/-- Head of a malloc-success oracle; an exhausted oracle means success. -/
def takeOracle : List Bool → Bool × List Bool
  | [] => (true, [])
  | b :: bs => (b, bs)

/-- Walk of gc_collect_minor over the nursery (gc.c lines 105-130):
returns (survivors kept in the nursery, promoted objects in address order,
number of reclaimed young objects, remaining oracle).  A marked object has
its age incremented in the header before the copy, so both copies carry
age + 1 and the untouched mark bit; promotion consumes one malloc-oracle
entry and on failure the object is silently dropped, exactly as in the C
code where the promoting malloc result is unchecked beyond a null test. -/
def minorWalk (oracle : List Bool) : List GcObj → List GcObj × List GcObj × Nat × List Bool
  | [] => ([], [], 0, oracle)
  | h :: rest =>
    if h.marked then
      if TENURING_AGE ≤ h.age + 1 then
        let t := takeOracle oracle
        let r := minorWalk t.2 rest
        if t.1 then (r.1, { h with age := h.age + 1 } :: r.2.1, r.2.2.1, r.2.2.2)
        else (r.1, r.2.1, r.2.2.1, r.2.2.2)
      else
        let r := minorWalk oracle rest
        ({ h with age := h.age + 1 } :: r.1, r.2.1, r.2.2.1, r.2.2.2)
    else
      let r := minorWalk oracle rest
      (r.1, r.2.1, r.2.2.1 + 1, r.2.2.2)

/-- gc_collect_minor of gc.c: compact survivors into the nursery, prepend
each promoted object to the old list (so the promoted block appears
reversed at its head), and update the counters. -/
def gc_collect_minor (oracle : List Bool) (st : GcState) : GcState :=
  let r := minorWalk oracle st.nursery
  { st with
    minor_count := st.minor_count + 1
    nursery := r.1
    old_list := r.2.1.reverse ++ st.old_list
    old_used := st.old_used + heapBytes r.2.1
    old_allocs := st.old_allocs + r.2.1.length
    promoted := st.promoted + r.2.1.length
    collected_young := st.collected_young + r.2.2.1 }

/-- Walk of gc_collect_major over the old list (gc.c lines 144-157):
returns (survivors with mark cleared, freed bytes, freed count). -/
def majorWalk : List GcObj → List GcObj × Nat × Nat
  | [] => ([], 0, 0)
  | h :: rest =>
    let r := majorWalk rest
    if h.marked then ({ h with marked := false } :: r.1, r.2.1, r.2.2)
    else (r.1, r.2.1 + (HDR_SIZE + h.size), r.2.2 + 1)

/-- gc_collect_major of gc.c: unlink and free every unmarked old node,
clear the mark bit of every survivor, update the counters. -/
def gc_collect_major (st : GcState) : GcState :=
  let r := majorWalk st.old_list
  { st with
    major_count := st.major_count + 1
    old_list := r.1
    old_used := st.old_used - r.2.1
    old_allocs := st.old_allocs - r.2.2
    collected_old := st.collected_old + r.2.2 }

/-- gc_sweep of gc.c: always a minor collection, then a major collection
exactly when old_used exceeds OLD_THRESHOLD. -/
def gc_sweep (oracle : List Bool) (st : GcState) : GcState :=
  let st1 := gc_collect_minor oracle st
  if OLD_THRESHOLD < st1.old_used then gc_collect_major st1 else st1

/-- gc_collect_full of gc.c: minor collection, major collection, then the
nursery is emptied (young_top = young_slab). -/
def gc_collect_full (oracle : List Bool) (st : GcState) : GcState :=
  let st1 := gc_collect_major (gc_collect_minor oracle st)
  { st1 with nursery := [] }

/-- Result of a GC allocation: a nursery pointer is identified by its byte
offset from young_slab (the payload address, just past the header); an old
pointer is an individually malloc-ed node. -/
inductive GcPtr where
  | young (offset : Nat)
  | old
deriving Repr, DecidableEq

/-- gc_alloc_old_internal of gc.c: malloc a header plus the 8-aligned
payload, push it at the head of the old list with age TENURING_AGE, mark
clear, generation old; on malloc failure return null with no state
change.  Fresh payload bytes are uninitialized; modelled as zeros. -/
def gc_alloc_old_internal (mallocOk : Bool) (st : GcState) (size : Nat) :
    GcState × Option GcPtr :=
  let aligned := ALIGN_UP size SLAB_ALIGN
  if mallocOk then
    ({ st with
        old_list := ⟨aligned, List.replicate aligned 0, TENURING_AGE, false⟩ :: st.old_list
        old_used := st.old_used + (HDR_SIZE + aligned)
        old_allocs := st.old_allocs + 1 }, some .old)
  else (st, none)

/-- gc_alloc_old of gc.c, the public direct-to-old entry point. -/
def gc_alloc_old (mallocOk : Bool) (st : GcState) (size : Nat) :
    GcState × Option GcPtr :=
  gc_alloc_old_internal mallocOk st size

/-- gc_malloc of gc.c: zero size is coerced to one; the total-allocation
counter is incremented up front; then the bump fast path in the nursery,
or one minor collection and a single retry, or the old-generation
fallback.  The oracle feeds the promoting mallocs of the minor collection
and oldOk the fallback malloc. -/
def gc_malloc (oracle : List Bool) (oldOk : Bool) (st : GcState) (size : Nat) :
    GcState × Option GcPtr :=
  let sz := if size = 0 then 1 else size
  let aligned := ALIGN_UP sz SLAB_ALIGN
  let total := HDR_SIZE + aligned
  let st1 := { st with total_allocs := st.total_allocs + 1 }
  if heapBytes st1.nursery + total ≤ YOUNG_SIZE then
    ({ st1 with nursery := st1.nursery ++ [⟨aligned, List.replicate aligned 0, 0, false⟩] },
     some (.young (heapBytes st1.nursery + HDR_SIZE)))
  else
    let st2 := gc_collect_minor oracle st1
    if heapBytes st2.nursery + total ≤ YOUNG_SIZE then
      ({ st2 with nursery := st2.nursery ++ [⟨aligned, List.replicate aligned 0, 0, false⟩] },
       some (.young (heapBytes st2.nursery + HDR_SIZE)))
    else
      gc_alloc_old_internal oldOk st2 sz

/-- Predicate of the promoting branch of the minor walk: marked and aged
to the tenuring threshold by this collection. -/
def promotes (o : GcObj) : Bool := o.marked && decide (TENURING_AGE ≤ o.age + 1)

/-- Predicate of the surviving-young branch of the minor walk: marked but
still below the tenuring threshold after aging. -/
def survivesYoung (o : GcObj) : Bool := o.marked && decide (o.age + 1 < TENURING_AGE)

/-- Age increment applied by the minor collection to every marked header
before it is copied. -/
def bump (o : GcObj) : GcObj := { o with age := o.age + 1 }

/-- Identity of an object for the conservation property: its size and its
payload bytes. -/
def objKey (o : GcObj) : Nat × List Nat := (o.size, o.payload)

/-- ARENA_DEFAULT_ALIGN of gc.c. -/
def ARENA_DEFAULT_ALIGN : Nat := 8

/-- One arena chunk: its capacity and its allocation cursor as a byte
offset from its base (top - base in gc.c). -/
structure ArenaChunk where
  cap : Nat
  top : Nat
deriving Repr, DecidableEq

/-- An Arena of gc.c.  The chunk chain is listed head first; the last
element is the first chunk fixed at initialization (new chunks are pushed
at the head).  A null arena pointer is modelled as Option.none at the
call sites. -/
structure Arena where
  chunks : List ArenaChunk
  chunk_size : Nat
  total_allocs : Nat
  total_bytes : Nat
deriving Repr, DecidableEq

/-- arena_new_chunk of gc.c: mmap a fresh page-rounded chunk, cursor at
base; null on mmap failure (mmapOk oracle). -/
def arena_new_chunk (mmapOk : Bool) (size : Nat) : Option ArenaChunk :=
  if mmapOk then some ⟨ALIGN_UP size 4096, 0⟩ else none

/-- arena_init of gc.c: one fresh chunk as both head and first (an empty
chain on mmap failure), chunk_size recorded unrounded, counters zero. -/
def arena_init (mmapOk : Bool) (initial_size : Nat) : Arena :=
  match arena_new_chunk mmapOk initial_size with
  | some c => ⟨[c], initial_size, 0, 0⟩
  | none => ⟨[], initial_size, 0, 0⟩

/-- Capacity chosen for an overflow chunk in arena_alloc of gc.c, before
page rounding: twice the aligned request if that exceeds the configured
chunk size, else the configured chunk size. -/
def new_cap_code (chunk_size aligned : Nat) : Nat :=
  if chunk_size < aligned then aligned * 2 else chunk_size

/-- Capacity rule stated by the spec for an overflow chunk, for
comparison with new_cap_code: max(configured default, twice the request). -/
def new_cap_spec (chunk_size req : Nat) : Nat := max chunk_size (2 * req)

/-- A returned arena pointer, identified by (depth of its chunk from the
bottom of the chain, byte offset of the allocation within that chunk).
The first chunk has depth 0; pushed chunks get increasing depths. -/
abbrev ArenaPtr := Nat × Nat

/-- arena_alloc of gc.c: null arena or zero size returns null at once;
otherwise the allocation and byte counters are incremented, then the bump
fast path in the head chunk, or a fresh overflow chunk pushed at the
head.  On the chain being empty the C code dereferences a null head
(undefined behavior); the model returns (none, none) there and every
theorem excludes that case by hypothesis.  On mmap failure the updated
counters are kept and null is returned, as in the C code. -/
def arena_alloc (mmapOk : Bool) (a? : Option Arena) (size : Nat) :
    Option Arena × Option ArenaPtr :=
  match a? with
  | none => (none, none)
  | some a =>
    if size = 0 then (some a, none)
    else
      let aligned := ALIGN_UP size ARENA_DEFAULT_ALIGN
      match a.chunks with
      | [] => (none, none)
      | c :: rest =>
        if c.top + aligned ≤ c.cap then
          (some { a with
              total_allocs := a.total_allocs + 1
              total_bytes := a.total_bytes + aligned
              chunks := { c with top := c.top + aligned } :: rest },
           some (rest.length, c.top))
        else
          match arena_new_chunk mmapOk (new_cap_code a.chunk_size aligned) with
          | none =>
            (some { a with
                total_allocs := a.total_allocs + 1
                total_bytes := a.total_bytes + aligned }, none)
          | some nc =>
            (some { a with
                total_allocs := a.total_allocs + 1
                total_bytes := a.total_bytes + aligned
                chunks := { nc with top := aligned } :: c :: rest },
             some ((c :: rest).length, 0))

/-- arena_reset of gc.c: munmap every chunk except the first (the last of
the modelled chain), rewind its cursor to base, make it the sole chunk,
zero the counters; a null arena is a no-op. -/
def arena_reset (a? : Option Arena) : Option Arena :=
  match a? with
  | none => none
  | some a =>
    match a.chunks.getLast? with
    | none => some { a with chunks := [], total_allocs := 0, total_bytes := 0 }
    | some f => some { a with chunks := [⟨f.cap, 0⟩], total_allocs := 0, total_bytes := 0 }

/-- ArenaSavepoint of gc.c: the saved chunk identified by its depth-based
position (the chain length at save time) together with the saved cursor
offset; none models the zeroed savepoint taken from a null or
uninitialized arena. -/
abbrev ArenaSavepoint := Option (Nat × Nat)

/-- arena_save of gc.c: capture the head chunk and its cursor.  The head
chunk is identified positionally by the chain length at capture time,
which under the documented validity precondition of restore names the
same chunk the C pointer does. -/
def arena_save (a? : Option Arena) : ArenaSavepoint :=
  match a? with
  | none => none
  | some a =>
    match a.chunks with
    | [] => none
    | c :: _ => some (a.chunks.length, c.top)

/-- arena_restore of gc.c: munmap every chunk strictly above the saved
one, make the saved chunk the head and rewind its cursor to the saved
offset; a null arena or a null savepoint is a no-op.  The saved chunk is
located by dropping down to the saved chain length, which matches the C
pointer walk whenever the savepoint is still valid (the documented
precondition). -/
def arena_restore (a? : Option Arena) (sp : ArenaSavepoint) : Option Arena :=
  match a?, sp with
  | none, _ => none
  | some a, none => some a
  | some a, some (n, t) =>
    match a.chunks.drop (a.chunks.length - n) with
    | [] => some { a with chunks := [] }
    | c :: rest => some { a with chunks := { c with top := t } :: rest }

/-- Run arena_alloc (with an always-succeeding mmap) over a list of
request sizes, collecting the returned pointers. -/
def arena_allocs (a? : Option Arena) : List Nat → Option Arena × List (Option ArenaPtr)
  | [] => (a?, [])
  | s :: rest =>
    let r1 := arena_alloc true a? s
    let r2 := arena_allocs r1.1 rest
    (r2.1, r1.2 :: r2.2)

/-- A concrete empty GC state, used to instantiate universally quantified
theorems at concrete inputs. -/
def st0 : GcState := ⟨[], [], 0, 0, 0, 0, 0, 0, 0, 0⟩

lemma minorWalk_nil (l : List GcObj) :
    minorWalk [] l = ((l.filter survivesYoung).map bump, (l.filter promotes).map bump,
      (l.filter fun o => !o.marked).length, []) := by
  induction l with
  | nil => rfl
  | cons h t ih =>
    by_cases hm : h.marked
    · by_cases ha : TENURING_AGE ≤ h.age + 1
      · have hs : survivesYoung h = false := by
          simp only [survivesYoung, hm, Bool.true_and, decide_eq_false_iff_not]
          omega
        have hp : promotes h = true := by
          simp [promotes, hm, ha]
        simp [minorWalk, hm, ha, takeOracle, ih, List.filter_cons, hs, hp, bump]
      · have hs : survivesYoung h = true := by
          simp only [survivesYoung, hm, Bool.true_and, decide_eq_true_eq]
          omega
        have hp : promotes h = false := by
          simp [promotes, hm, ha]
        simp [minorWalk, hm, ha, ih, List.filter_cons, hs, hp, bump]
    · have hs : survivesYoung h = false := by simp [survivesYoung, hm]
      have hp : promotes h = false := by simp [promotes, hm]
      simp [minorWalk, hm, ih, List.filter_cons, hs, hp]

lemma minorWalk_surv (oracle : List Bool) (l : List GcObj) :
    (minorWalk oracle l).1 = (l.filter survivesYoung).map bump := by
  induction l generalizing oracle with
  | nil => rfl
  | cons h t ih =>
    by_cases hm : h.marked
    · by_cases ha : TENURING_AGE ≤ h.age + 1
      · have hs : survivesYoung h = false := by
          simp only [survivesYoung, hm, Bool.true_and, decide_eq_false_iff_not]
          omega
        by_cases ho : (takeOracle oracle).1
        <;> simp [minorWalk, hm, ha, ho, ih, List.filter_cons, hs]
      · have hs : survivesYoung h = true := by
          simp only [survivesYoung, hm, Bool.true_and, decide_eq_true_eq]
          omega
        simp [minorWalk, hm, ha, ih, List.filter_cons, hs, bump]
    · have hs : survivesYoung h = false := by simp [survivesYoung, hm]
      simp [minorWalk, hm, ih, List.filter_cons, hs]

lemma minorWalk_prom_marked (oracle : List Bool) (l : List GcObj) :
    ∀ o ∈ (minorWalk oracle l).2.1, o.marked = true := by
  induction l generalizing oracle with
  | nil => simp [minorWalk]
  | cons h t ih =>
    by_cases hm : h.marked
    · by_cases ha : TENURING_AGE ≤ h.age + 1
      · by_cases ho : (takeOracle oracle).1
        · simp only [minorWalk, hm, if_true, ha, ho]
          intro o hmem
          rcases List.mem_cons.mp hmem with h1 | h2
          · subst h1; rfl
          · exact ih _ o h2
        · simp only [minorWalk, hm, if_true, ha, ho]
          intro o hmem
          exact ih _ o hmem
      · simp only [minorWalk, hm, if_true, ha, if_neg ha]
        intro o hmem
        exact ih _ o hmem
    · rw [Bool.not_eq_true] at hm
      simp only [minorWalk, hm, Bool.false_eq_true, if_false]
      intro o hmem
      exact ih _ o hmem

lemma marked_perm (l : List GcObj) :
    List.Perm (l.filter (fun o => o.marked))
      (l.filter promotes ++ l.filter survivesYoung) := by
  induction l with
  | nil => rfl
  | cons h t ih =>
    by_cases hm : h.marked
    · by_cases ha : TENURING_AGE ≤ h.age + 1
      · have hs : survivesYoung h = false := by
          simp only [survivesYoung, hm, Bool.true_and, decide_eq_false_iff_not]
          omega
        have hp : promotes h = true := by simp [promotes, hm, ha]
        simpa [List.filter_cons, hm, hs, hp] using ih.cons h
      · have hs : survivesYoung h = true := by
          simp only [survivesYoung, hm, Bool.true_and, decide_eq_true_eq]
          omega
        have hp : promotes h = false := by simp [promotes, hm, ha]
        simp only [List.filter_cons, hm, hs, hp, if_true, if_false]
        exact (ih.cons h).trans List.perm_middle.symm
    · simp [List.filter_cons, hm, survivesYoung, promotes, ih]

lemma gc_collect_minor_old_list (oracle : List Bool) (st : GcState) :
    (gc_collect_minor oracle st).old_list
      = (minorWalk oracle st.nursery).2.1.reverse ++ st.old_list := rfl

lemma gc_collect_minor_nursery (oracle : List Bool) (st : GcState) :
    (gc_collect_minor oracle st).nursery
      = (st.nursery.filter survivesYoung).map bump := minorWalk_surv oracle st.nursery

lemma majorWalk_unmarked (l : List GcObj) :
    ∀ o ∈ (majorWalk l).1, o.marked = false := by
  induction l with
  | nil => simp [majorWalk]
  | cons h t ih =>
    by_cases hm : h.marked
    · simp only [majorWalk, hm, if_true]
      intro o hmem
      rcases List.mem_cons.mp hmem with h1 | h2
      · subst h1; rfl
      · exact ih o h2
    · simp only [majorWalk, hm]
      intro o hmem
      exact ih o (by simpa [hm] using hmem)

lemma minorWalk_all_true (l : List GcObj) :
    ∀ (oracle : List Bool), (∀ b ∈ oracle, b = true) →
    (minorWalk oracle l).1 = (minorWalk [] l).1
    ∧ (minorWalk oracle l).2.1 = (minorWalk [] l).2.1
    ∧ (minorWalk oracle l).2.2.1 = (minorWalk [] l).2.2.1 := by
  induction l with
  | nil =>
    intro oracle hok
    exact ⟨rfl, rfl, rfl⟩
  | cons h t ih =>
    intro oracle hok
    by_cases hm : h.marked
    · by_cases ha : TENURING_AGE ≤ h.age + 1
      · cases oracle with
        | nil => exact ⟨rfl, rfl, rfl⟩
        | cons b bs =>
          have hb : b = true := hok b (List.mem_cons_self b bs)
          have hbs : ∀ x ∈ bs, x = true := fun x hx => hok x (List.mem_cons_of_mem b hx)
          obtain ⟨i1, i2, i3⟩ := ih bs hbs
          subst hb
          refine ⟨?_, ?_, ?_⟩
          <;> simp [minorWalk, hm, ha, takeOracle, i1, i2, i3]
      · obtain ⟨i1, i2, i3⟩ := ih oracle hok
        refine ⟨?_, ?_, ?_⟩
        <;> simp [minorWalk, hm, ha, i1, i2, i3]
    · obtain ⟨i1, i2, i3⟩ := ih oracle hok
      refine ⟨?_, ?_, ?_⟩
      <;> simp [minorWalk, hm, i1, i2, i3]

lemma gc_collect_minor_all_true (oracle : List Bool) (hok : ∀ b ∈ oracle, b = true)
    (st : GcState) : gc_collect_minor oracle st = gc_collect_minor [] st := by
  obtain ⟨h1, h2, h3⟩ := minorWalk_all_true st.nursery oracle hok
  simp only [gc_collect_minor, h1, h2, h3]

lemma conservation_nil_oracle (st : GcState) :
    (((st.nursery.filter (fun o => o.marked)).map objKey : List (Nat × List Nat)) :
        Multiset (Nat × List Nat))
      = ((((gc_collect_minor [] st).old_list.take
            ((gc_collect_minor [] st).old_list.length - st.old_list.length)
          ++ (gc_collect_minor [] st).nursery).map objKey : List (Nat × List Nat)) :
        Multiset (Nat × List Nat)) := by
  have hw := minorWalk_nil st.nursery
  have hold : (gc_collect_minor [] st).old_list
      = ((st.nursery.filter promotes).map bump).reverse ++ st.old_list := by
    rw [gc_collect_minor_old_list, hw]
  have hnur : (gc_collect_minor [] st).nursery
      = (st.nursery.filter survivesYoung).map bump := gc_collect_minor_nursery [] st
  rw [Multiset.coe_eq_coe, hold, hnur]
  have hlen : (((st.nursery.filter promotes).map bump).reverse ++ st.old_list).length
        - st.old_list.length
      = ((st.nursery.filter promotes).map bump).reverse.length := by
    simp
  rw [hlen, List.take_left]
  have hkey : ∀ (x : List GcObj), (x.map bump).map objKey = x.map objKey := by
    intro x
    rw [List.map_map]
    rfl
  refine ((marked_perm st.nursery).map objKey).trans ?_
  rw [List.map_append, List.map_append, List.map_reverse, hkey, hkey]
  exact (((st.nursery.filter promotes).map objKey).reverse_perm.symm).append
    (List.Perm.refl _)

/-- C1 counterexample: in a minor collection whose promoting malloc
fails (oracle [false]), a marked age-1 object is silently dropped — it
reaches neither the old list nor the surviving nursery — so the claimed
multiset conservation between marked objects before the collection and
promoted-plus-surviving objects after it is false at this input. -/
theorem gc_minor_conservation_cex :
    ¬ (((((({ st0 with nursery := [⟨8, [1], 1, true⟩] } : GcState).nursery.filter
            (fun o => o.marked)).map objKey) : List (Nat × List Nat)) :
          Multiset (Nat × List Nat))
      = ((((gc_collect_minor [false]
              { st0 with nursery := [⟨8, [1], 1, true⟩] }).old_list.take
            ((gc_collect_minor [false]
              { st0 with nursery := [⟨8, [1], 1, true⟩] }).old_list.length
              - ({ st0 with nursery := [⟨8, [1], 1, true⟩] } : GcState).old_list.length)
          ++ (gc_collect_minor [false]
              { st0 with nursery := [⟨8, [1], 1, true⟩] }).nursery).map objKey
          : List (Nat × List Nat)) : Multiset (Nat × List Nat))) := by decide

/-- C1 amended: for every minor collection in which every promoting
malloc succeeds (all-true oracle), the multiset of marked nursery
objects before the collection, identified by size and payload content,
equals the multiset formed by the objects pushed onto the old list (the
prefix of the new old list that was not there before) together with the
objects surviving in the nursery, so no marked payload byte is altered
by the copy; when a promoting malloc fails, that marked object is
silently dropped — neither promoted, nor surviving, nor counted as
reclaimed — and conservation does not hold. -/
theorem gc_minor_conservation (oracle : List Bool) (st : GcState)
    (hok : ∀ b ∈ oracle, b = true) :
    (((st.nursery.filter (fun o => o.marked)).map objKey : List (Nat × List Nat)) :
        Multiset (Nat × List Nat))
      = ((((gc_collect_minor oracle st).old_list.take
            ((gc_collect_minor oracle st).old_list.length - st.old_list.length)
          ++ (gc_collect_minor oracle st).nursery).map objKey : List (Nat × List Nat)) :
        Multiset (Nat × List Nat)) := by
  rw [gc_collect_minor_all_true oracle hok]
  exact conservation_nil_oracle st

/-- C1 amended, instantiated at an all-true oracle and a nursery holding
one marked age-1 object, which is promoted. -/
theorem gc_minor_conservation_inst :
    (∀ b ∈ ([true] : List Bool), b = true)
    ∧ (((((({ st0 with nursery := [⟨8, [1], 1, true⟩] } : GcState).nursery.filter
            (fun o => o.marked)).map objKey) : List (Nat × List Nat)) :
          Multiset (Nat × List Nat))
      = ((((gc_collect_minor [true]
              { st0 with nursery := [⟨8, [1], 1, true⟩] }).old_list.take
            ((gc_collect_minor [true]
              { st0 with nursery := [⟨8, [1], 1, true⟩] }).old_list.length
              - ({ st0 with nursery := [⟨8, [1], 1, true⟩] } : GcState).old_list.length)
          ++ (gc_collect_minor [true]
              { st0 with nursery := [⟨8, [1], 1, true⟩] }).nursery).map objKey
          : List (Nat × List Nat)) : Multiset (Nat × List Nat))) :=
  ⟨by decide,
   gc_minor_conservation [true] { st0 with nursery := [⟨8, [1], 1, true⟩] } (by decide)⟩

lemma tenuring_nil_oracle (st : GcState) (sz : Nat) (pl : List Nat) :
    ((gc_collect_minor [] { st with nursery := [⟨sz, pl, 0, true⟩] }).nursery
        = [⟨sz, pl, 1, true⟩]
      ∧ (gc_collect_minor [] { st with nursery := [⟨sz, pl, 0, true⟩] }).old_list
          = st.old_list
      ∧ (gc_collect_minor [] { st with nursery := [⟨sz, pl, 0, true⟩] }).promoted
          = st.promoted)
    ∧ ((gc_collect_minor []
          (gc_collect_minor [] { st with nursery := [⟨sz, pl, 0, true⟩] })).nursery = []
      ∧ (gc_collect_minor []
          (gc_collect_minor [] { st with nursery := [⟨sz, pl, 0, true⟩] })).old_list
          = ⟨sz, pl, 2, true⟩ :: st.old_list
      ∧ (gc_collect_minor []
          (gc_collect_minor [] { st with nursery := [⟨sz, pl, 0, true⟩] })).promoted
          = st.promoted + 1)
    ∧ (∀ k, k < TENURING_AGE →
        (gc_collect_minor [] { st with nursery := [⟨sz, pl, k, false⟩] }).nursery = []
        ∧ (gc_collect_minor [] { st with nursery := [⟨sz, pl, k, false⟩] }).old_list
            = st.old_list
        ∧ (gc_collect_minor [] { st with nursery := [⟨sz, pl, k, false⟩] }).promoted
            = st.promoted
        ∧ (gc_collect_minor [] { st with nursery := [⟨sz, pl, k, false⟩] }).collected_young
            = st.collected_young + 1) := by
  refine ⟨⟨?_, ?_, ?_⟩, ⟨?_, ?_, ?_⟩, ?_⟩
  <;> simp [gc_collect_minor, minorWalk_nil, List.filter_cons, survivesYoung, promotes,
        bump, heapBytes, TENURING_AGE]

/-- C2 counterexample: a marked age-1 object (twice-marked, due for
promotion at this minor collection) whose promoting malloc fails
(oracle [false]) is not promoted: the old list and the promoted counter
are unchanged and the object is gone from the nursery, so surviving
TENURING_AGE marked collections does not always end in promotion. -/
theorem gc_minor_tenuring_cex :
    (gc_collect_minor [false] { st0 with nursery := [⟨8, [1], 1, true⟩] }).nursery = []
    ∧ (gc_collect_minor [false] { st0 with nursery := [⟨8, [1], 1, true⟩] }).old_list = []
    ∧ (gc_collect_minor [false] { st0 with nursery := [⟨8, [1], 1, true⟩] }).promoted = 0
    ∧ ¬ ((gc_collect_minor [false] { st0 with nursery := [⟨8, [1], 1, true⟩] }).old_list
          = ⟨8, [1], 2, true⟩ :: st0.old_list) := by decide

/-- C2 amended: with the tenuring threshold TENURING_AGE = 2 and every
promoting malloc succeeding (all-true oracle), a young object of age 0
that is marked at a minor collection survives it in the nursery at age 1
without being promoted; marked at the following minor collection as well
(the copied header keeps the mark bit) it is promoted to the old list at
that second collection; and an object left unmarked at any minor
collection while its age k is still below the threshold is reclaimed by
that collection, never promoted.  If the promoting malloc fails at the
second marked collection the object is silently dropped instead of being
promoted. -/
theorem gc_minor_tenuring (oracle : List Bool) (st : GcState) (sz : Nat) (pl : List Nat)
    (hok : ∀ b ∈ oracle, b = true) :
    ((gc_collect_minor oracle { st with nursery := [⟨sz, pl, 0, true⟩] }).nursery
        = [⟨sz, pl, 1, true⟩]
      ∧ (gc_collect_minor oracle { st with nursery := [⟨sz, pl, 0, true⟩] }).old_list
          = st.old_list
      ∧ (gc_collect_minor oracle { st with nursery := [⟨sz, pl, 0, true⟩] }).promoted
          = st.promoted)
    ∧ ((gc_collect_minor oracle
          (gc_collect_minor oracle { st with nursery := [⟨sz, pl, 0, true⟩] })).nursery = []
      ∧ (gc_collect_minor oracle
          (gc_collect_minor oracle { st with nursery := [⟨sz, pl, 0, true⟩] })).old_list
          = ⟨sz, pl, 2, true⟩ :: st.old_list
      ∧ (gc_collect_minor oracle
          (gc_collect_minor oracle { st with nursery := [⟨sz, pl, 0, true⟩] })).promoted
          = st.promoted + 1)
    ∧ (∀ k, k < TENURING_AGE →
        (gc_collect_minor oracle { st with nursery := [⟨sz, pl, k, false⟩] }).nursery = []
        ∧ (gc_collect_minor oracle { st with nursery := [⟨sz, pl, k, false⟩] }).old_list
            = st.old_list
        ∧ (gc_collect_minor oracle { st with nursery := [⟨sz, pl, k, false⟩] }).promoted
            = st.promoted
        ∧ (gc_collect_minor oracle
            { st with nursery := [⟨sz, pl, k, false⟩] }).collected_young
            = st.collected_young + 1) := by
  simp only [gc_collect_minor_all_true oracle hok]
  exact tenuring_nil_oracle st sz pl

/-- C2 amended, instantiated at an all-true oracle: the twice-marked
object is promoted to the old list at the second minor collection, and
an unmarked young object of age 0 is reclaimed. -/
theorem gc_minor_tenuring_inst :
    (∀ b ∈ ([true] : List Bool), b = true)
    ∧ 0 < TENURING_AGE
    ∧ (gc_collect_minor [true]
        (gc_collect_minor [true] { st0 with nursery := [⟨8, [1], 0, true⟩] })).old_list
        = ⟨8, [1], 2, true⟩ :: st0.old_list
    ∧ (gc_collect_minor [true] { st0 with nursery := [⟨8, [1], 0, false⟩] }).nursery = [] :=
  ⟨by decide, by decide,
   (gc_minor_tenuring [true] st0 8 [1] (by decide)).2.1.2.1,
   ((gc_minor_tenuring [true] st0 8 [1] (by decide)).2.2 0 (by decide)).1⟩

/-- C3 counterexample: a marked age-0 nursery object survives the minor
collection with its mark bit still set (the header is copied verbatim),
so it is false that every collection entry point leaves every survivor
with a clear mark bit. -/
theorem gc_minor_mark_survives_cex :
    ¬ (∀ o ∈ (gc_collect_minor [] { st0 with nursery := [⟨8, [5], 0, true⟩] }).nursery,
        o.marked = false) := by decide

/-- C3 amended: only the major collection (and collectFull, which runs it
and then empties the nursery) clears the mark bits of its survivors; a
minor collection copies headers verbatim, so every object surviving in
the nursery still has its mark bit set, and every object the minor
collection adds to the old list (a promotion) also keeps its set mark
bit. -/
theorem gc_mark_clearing_by_collector :
    (∀ st : GcState, ∀ o ∈ (gc_collect_major st).old_list, o.marked = false)
    ∧ (∀ (oracle : List Bool) (st : GcState), (gc_collect_full oracle st).nursery = []
        ∧ ∀ o ∈ (gc_collect_full oracle st).old_list, o.marked = false)
    ∧ (∀ (oracle : List Bool) (st : GcState),
        ∀ o ∈ (gc_collect_minor oracle st).nursery, o.marked = true)
    ∧ (∀ (oracle : List Bool) (st : GcState),
        ∀ o ∈ (gc_collect_minor oracle st).old_list, o ∈ st.old_list ∨ o.marked = true) := by
  refine ⟨?_, ?_, ?_, ?_⟩
  · intro st o hmem
    exact majorWalk_unmarked st.old_list o hmem
  · intro oracle st
    refine ⟨rfl, ?_⟩
    intro o hmem
    exact majorWalk_unmarked _ o hmem
  · intro oracle st o hmem
    rw [gc_collect_minor_nursery] at hmem
    obtain ⟨x, hx, hxo⟩ := List.mem_map.mp hmem
    have hxm : x.marked = true := by
      have hps := List.of_mem_filter hx
      simp only [survivesYoung, Bool.and_eq_true] at hps
      exact hps.1
    rw [← hxo]
    simpa [bump] using hxm
  · intro oracle st o hmem
    rw [gc_collect_minor_old_list] at hmem
    rcases List.mem_append.mp hmem with h1 | h2
    · exact Or.inr (minorWalk_prom_marked oracle st.nursery o (List.mem_reverse.mp h1))
    · exact Or.inl h2

/-- C3 amended, instantiated: a surviving old object has a clear mark bit
after a major collection at a concrete state. -/
theorem gc_mark_clearing_by_collector_inst :
    (⟨8, [7], 2, false⟩ : GcObj)
        ∈ (gc_collect_major { st0 with old_list := [⟨8, [7], 2, true⟩] }).old_list
    ∧ (⟨8, [7], 2, false⟩ : GcObj).marked = false :=
  ⟨by decide,
   gc_mark_clearing_by_collector.1 { st0 with old_list := [⟨8, [7], 2, true⟩] }
     ⟨8, [7], 2, false⟩ (by decide)⟩

/-- C7: gc_sweep always runs exactly one minor collection, and runs a
major collection exactly when the old-generation byte usage after that
minor collection exceeds OLD_THRESHOLD; neither gc_malloc nor
gc_alloc_old ever runs a major collection. -/
theorem gc_sweep_policy (oracle : List Bool) (st : GcState) :
    (gc_sweep oracle st).minor_count = st.minor_count + 1
    ∧ ((gc_sweep oracle st).major_count = st.major_count + 1
        ↔ OLD_THRESHOLD < (gc_collect_minor oracle st).old_used)
    ∧ ((gc_sweep oracle st).major_count = st.major_count
        ↔ (gc_collect_minor oracle st).old_used ≤ OLD_THRESHOLD)
    ∧ (∀ (oldOk : Bool) (size : Nat),
        (gc_malloc oracle oldOk st size).1.major_count = st.major_count)
    ∧ (∀ (mallocOk : Bool) (size : Nat),
        (gc_alloc_old mallocOk st size).1.major_count = st.major_count) := by
  have hsweep : gc_sweep oracle st
      = if OLD_THRESHOLD < (gc_collect_minor oracle st).old_used
        then gc_collect_major (gc_collect_minor oracle st)
        else gc_collect_minor oracle st := rfl
  have hmaj1 : (gc_collect_major (gc_collect_minor oracle st)).major_count
      = st.major_count + 1 := rfl
  have hmaj2 : (gc_collect_minor oracle st).major_count = st.major_count := rfl
  have hmin1 : (gc_collect_major (gc_collect_minor oracle st)).minor_count
      = st.minor_count + 1 := rfl
  have hmin2 : (gc_collect_minor oracle st).minor_count = st.minor_count + 1 := rfl
  refine ⟨?_, ?_, ?_, ?_, ?_⟩
  · rw [hsweep]
    by_cases h : OLD_THRESHOLD < (gc_collect_minor oracle st).old_used
    · rw [if_pos h, hmin1]
    · rw [if_neg h, hmin2]
  · rw [hsweep]
    by_cases h : OLD_THRESHOLD < (gc_collect_minor oracle st).old_used
    · rw [if_pos h, hmaj1]
      exact iff_of_true rfl h
    · rw [if_neg h, hmaj2]
      exact iff_of_false (by omega) h
  · rw [hsweep]
    by_cases h : OLD_THRESHOLD < (gc_collect_minor oracle st).old_used
    · rw [if_pos h, hmaj1]
      exact iff_of_false (by omega) (by omega)
    · rw [if_neg h, hmaj2]
      exact iff_of_true rfl (by omega)
  · intro oldOk size
    simp only [gc_malloc, gc_alloc_old_internal]
    repeat' split
    all_goals rfl
  · intro mallocOk size
    cases mallocOk <;> rfl

/-- C10: arena_alloc with a zero size returns null leaving the arena
untouched (counters included), and with a null arena returns null. -/
theorem arena_alloc_guard (a : Arena) (mmapOk : Bool) (size : Nat) :
    arena_alloc mmapOk (some a) 0 = (some a, none)
    ∧ arena_alloc mmapOk none size = (none, none) :=
  ⟨rfl, rfl⟩

/-- An arena with a single exactly full 4096-byte chunk and the default
chunk size 4096, used as a concrete input for the arena counterexamples. -/
def aFull : Arena := ⟨[⟨4096, 4096⟩], 4096, 0, 0⟩

/-- C4 counterexample: with default chunk size 4096, a request of 2056
bytes (aligned 2056, half the default being 2048) that overflows the head
chunk gets a fresh chunk of capacity 4096, not
max(4096, 2 x 2056) = 4112: the code doubles the request only when the
aligned request strictly exceeds the default, so the new chunk is smaller
than twice this request. -/
theorem arena_growth_policy_cex :
    (arena_alloc true (some aFull) 2056).1
        = some ⟨[⟨4096, 2056⟩, ⟨4096, 4096⟩], 4096, 1, 2056⟩
    ∧ new_cap_code 4096 (ALIGN_UP 2056 ARENA_DEFAULT_ALIGN) ≠ new_cap_spec 4096 2056
    ∧ ¬ (2 * 2056 ≤ 4096) := by decide

/-- C4 amended: when arena_alloc overflows the head chunk, the capacity
of the fresh chunk before page rounding is twice the 8-aligned request if
that aligned request strictly exceeds the configured default chunk size,
and otherwise exactly the default chunk size (so a request larger than
half the default but not larger than the default yields a default-sized
chunk, not twice the request). -/
theorem arena_growth_policy (a : Arena) (c : ArenaChunk) (rest : List ArenaChunk)
    (size : Nat) (hc : a.chunks = c :: rest) (hsz : size ≠ 0)
    (hfull : c.cap < c.top + ALIGN_UP size ARENA_DEFAULT_ALIGN) :
    ∃ a', (arena_alloc true (some a) size).1 = some a'
      ∧ a'.chunks.head?
          = some ⟨ALIGN_UP (new_cap_code a.chunk_size (ALIGN_UP size ARENA_DEFAULT_ALIGN)) 4096,
              ALIGN_UP size ARENA_DEFAULT_ALIGN⟩ := by
  have hnofit : ¬ (c.top + ALIGN_UP size ARENA_DEFAULT_ALIGN ≤ c.cap) := by omega
  simp only [arena_alloc, hc, if_neg hsz, hnofit, if_false, arena_new_chunk, if_true]
  exact ⟨_, rfl, rfl⟩

/-- C4 amended, instantiated at the counterexample input. -/
theorem arena_growth_policy_inst :
    aFull.chunks = ⟨4096, 4096⟩ :: []
    ∧ (2056 : Nat) ≠ 0
    ∧ (4096 : Nat) < 4096 + ALIGN_UP 2056 ARENA_DEFAULT_ALIGN
    ∧ ∃ a', (arena_alloc true (some aFull) 2056).1 = some a'
      ∧ a'.chunks.head?
          = some ⟨ALIGN_UP (new_cap_code aFull.chunk_size (ALIGN_UP 2056 ARENA_DEFAULT_ALIGN)) 4096,
              ALIGN_UP 2056 ARENA_DEFAULT_ALIGN⟩ :=
  ⟨rfl, by decide, by decide,
   arena_growth_policy aFull ⟨4096, 4096⟩ [] 2056 rfl (by decide) (by decide)⟩

/-- C5 counterexample: arena_alloc that fails to obtain a chunk from the
operating system returns null but has already incremented the allocation
and byte counters, so the prior allocator state is not left unchanged. -/
theorem alloc_failure_stats_cex :
    (arena_alloc false (some aFull) 8).2 = none
    ∧ (arena_alloc false (some aFull) 8).1 = some ⟨[⟨4096, 4096⟩], 4096, 1, 8⟩
    ∧ (arena_alloc false (some aFull) 8).1 ≠ some aFull := by decide

/-- C5 amended: on operating-system allocation failure every alloc-family
call returns null; gc_alloc_old leaves the whole GC state unchanged
(failure there is atomic); arena_alloc leaves the chunk chain, cursors
and chunk size unchanged but has already incremented total_allocs and
total_bytes; and a gc_malloc whose nursery is full before and after the
minor collection and whose old-generation malloc fails returns null
having already incremented total_allocs and run that one minor
collection. -/
theorem alloc_failure_state :
    (∀ (st : GcState) (size : Nat), gc_alloc_old false st size = (st, none))
    ∧ (∀ (a : Arena) (c : ArenaChunk) (rest : List ArenaChunk) (size : Nat),
        a.chunks = c :: rest → size ≠ 0 →
        c.cap < c.top + ALIGN_UP size ARENA_DEFAULT_ALIGN →
        arena_alloc false (some a) size
          = (some { a with
                      total_allocs := a.total_allocs + 1
                      total_bytes := a.total_bytes + ALIGN_UP size ARENA_DEFAULT_ALIGN },
             none))
    ∧ (∀ (oracle : List Bool) (st : GcState) (size : Nat),
        size ≠ 0 →
        YOUNG_SIZE < heapBytes st.nursery + (HDR_SIZE + ALIGN_UP size SLAB_ALIGN) →
        YOUNG_SIZE < heapBytes (gc_collect_minor oracle
            { st with total_allocs := st.total_allocs + 1 }).nursery
          + (HDR_SIZE + ALIGN_UP size SLAB_ALIGN) →
        gc_malloc oracle false st size
          = (gc_collect_minor oracle { st with total_allocs := st.total_allocs + 1 },
             none)) := by
  refine ⟨?_, ?_, ?_⟩
  · intro st size
    rfl
  · intro a c rest size hc hsz hfull
    have hnofit : ¬ (c.top + ALIGN_UP size ARENA_DEFAULT_ALIGN ≤ c.cap) := by omega
    simp only [arena_alloc, hc, if_neg hsz, hnofit, if_false, arena_new_chunk]
    rfl
  · intro oracle st size hsz h1 h2
    have hz : (if size = 0 then 1 else size) = size := if_neg hsz
    have hfit1 : ¬ (heapBytes st.nursery + (HDR_SIZE + ALIGN_UP size SLAB_ALIGN)
        ≤ YOUNG_SIZE) := by omega
    have hfit2 : ¬ (heapBytes (gc_collect_minor oracle
          { st with total_allocs := st.total_allocs + 1 }).nursery
        + (HDR_SIZE + ALIGN_UP size SLAB_ALIGN) ≤ YOUNG_SIZE) := by omega
    simp only [gc_malloc, hz, hfit1, if_false, hfit2, gc_alloc_old_internal]
    rfl

lemma align_up_slab_mod (n : Nat) : ALIGN_UP n SLAB_ALIGN % 8 = 0 := by
  simp only [ALIGN_UP, SLAB_ALIGN]
  omega

lemma heapBytes_mod (l : List GcObj) (h : ∀ o ∈ l, o.size % 8 = 0) :
    heapBytes l % 8 = 0 := by
  induction l with
  | nil => rfl
  | cons o t ih =>
    have ho := h o (List.mem_cons_self o t)
    have ht := ih (fun x hx => h x (List.mem_cons_of_mem o hx))
    simp only [heapBytes, HDR_SIZE, List.map_cons, List.sum_cons] at *
    omega

lemma minor_nursery_inv (oracle : List Bool) (st : GcState)
    (h : ∀ o ∈ st.nursery, o.size % 8 = 0) :
    ∀ o ∈ (gc_collect_minor oracle st).nursery, o.size % 8 = 0 := by
  intro o hmem
  rw [gc_collect_minor_nursery] at hmem
  obtain ⟨x, hx, rfl⟩ := List.mem_map.mp hmem
  exact h x (List.mem_filter.mp hx).1

/-- A GC state whose nursery is exactly full with one marked object, so
that even after a minor collection no room is gained. -/
def stFullW : GcState := ⟨[⟨65520, [], 0, true⟩], [], 0, 0, 0, 0, 0, 0, 0, 0⟩

/-- C5 amended, instantiated: the arena case at a full chunk with a
failing mmap, and the gc_malloc case at a full nursery with a failing
old-generation malloc. -/
theorem alloc_failure_state_inst :
    arena_alloc false (some aFull) 8
      = (some { aFull with
                  total_allocs := aFull.total_allocs + 1
                  total_bytes := aFull.total_bytes + ALIGN_UP 8 ARENA_DEFAULT_ALIGN },
         none)
    ∧ gc_malloc [] false stFullW 8
      = (gc_collect_minor [] { stFullW with total_allocs := stFullW.total_allocs + 1 },
         none) :=
  ⟨alloc_failure_state.2.1 aFull ⟨4096, 4096⟩ [] 8 rfl (by decide) (by decide),
   alloc_failure_state.2.2 [] stFullW 8 (by decide) (by decide) (by decide)⟩

/-- C6: gc_malloc treats a zero request exactly as a one-byte request;
every nursery pointer it returns is an 8-aligned payload offset preceded
by a header (the HDR_SIZE bytes below it); when the request fits the
nursery no collection runs and the pointer is the bump pointer plus the
header size; when it does not fit, exactly one minor collection runs; and
the old-generation fallback is used exactly when the request fits neither
before nor after that single minor collection and its malloc succeeds. -/
theorem gc_malloc_contract (oracle : List Bool) (oldOk : Bool) (st : GcState)
    (hinv : ∀ o ∈ st.nursery, o.size % SLAB_ALIGN = 0) :
    gc_malloc oracle oldOk st 0 = gc_malloc oracle oldOk st 1
    ∧ (∀ size off, (gc_malloc oracle oldOk st size).2 = some (.young off) →
        off % SLAB_ALIGN = 0 ∧ HDR_SIZE ≤ off)
    ∧ (∀ size,
        heapBytes st.nursery
            + (HDR_SIZE + ALIGN_UP (if size = 0 then 1 else size) SLAB_ALIGN)
          ≤ YOUNG_SIZE →
        (gc_malloc oracle oldOk st size).1.minor_count = st.minor_count
        ∧ (gc_malloc oracle oldOk st size).2
            = some (.young (heapBytes st.nursery + HDR_SIZE)))
    ∧ (∀ size,
        YOUNG_SIZE < heapBytes st.nursery
            + (HDR_SIZE + ALIGN_UP (if size = 0 then 1 else size) SLAB_ALIGN) →
        (gc_malloc oracle oldOk st size).1.minor_count = st.minor_count + 1)
    ∧ (∀ size, (gc_malloc oracle oldOk st size).2 = some .old ↔
        (YOUNG_SIZE < heapBytes st.nursery
            + (HDR_SIZE + ALIGN_UP (if size = 0 then 1 else size) SLAB_ALIGN)
        ∧ YOUNG_SIZE < heapBytes (gc_collect_minor oracle
              { st with total_allocs := st.total_allocs + 1 }).nursery
            + (HDR_SIZE + ALIGN_UP (if size = 0 then 1 else size) SLAB_ALIGN)
        ∧ oldOk = true)) := by
  have hinv8 : ∀ o ∈ st.nursery, o.size % 8 = 0 := hinv
  refine ⟨rfl, ?_, ?_, ?_, ?_⟩
  · intro size off h
    by_cases h1 : heapBytes st.nursery
        + (HDR_SIZE + ALIGN_UP (if size = 0 then 1 else size) SLAB_ALIGN) ≤ YOUNG_SIZE
    · simp only [gc_malloc, h1, if_true] at h
      have hoff : off = heapBytes st.nursery + HDR_SIZE := by
        simpa using h.symm
      have hmod := heapBytes_mod st.nursery hinv8
      subst hoff
      constructor
      · simp only [SLAB_ALIGN, HDR_SIZE] at *
        omega
      · simp only [HDR_SIZE]
        omega
    · by_cases h2 : heapBytes (gc_collect_minor oracle
            { st with total_allocs := st.total_allocs + 1 }).nursery
          + (HDR_SIZE + ALIGN_UP (if size = 0 then 1 else size) SLAB_ALIGN) ≤ YOUNG_SIZE
      · simp only [gc_malloc, h1, if_false, h2, if_true] at h
        have hmod := heapBytes_mod _
          (minor_nursery_inv oracle { st with total_allocs := st.total_allocs + 1 } hinv8)
        have hoff : off = heapBytes (gc_collect_minor oracle
            { st with total_allocs := st.total_allocs + 1 }).nursery + HDR_SIZE := by
          simpa using h.symm
        subst hoff
        constructor
        · simp only [SLAB_ALIGN, HDR_SIZE] at *
          omega
        · simp only [HDR_SIZE]
          omega
      · simp only [gc_malloc, h1, if_false, h2, gc_alloc_old_internal] at h
        cases oldOk <;> simp at h
  · intro size h1
    simp only [gc_malloc, h1, if_true]
    constructor <;> trivial
  · intro size h1
    have hfit1 : ¬ (heapBytes st.nursery
        + (HDR_SIZE + ALIGN_UP (if size = 0 then 1 else size) SLAB_ALIGN)
        ≤ YOUNG_SIZE) := by omega
    simp only [gc_malloc, hfit1, if_false]
    by_cases h2 : heapBytes (gc_collect_minor oracle
          { st with total_allocs := st.total_allocs + 1 }).nursery
        + (HDR_SIZE + ALIGN_UP (if size = 0 then 1 else size) SLAB_ALIGN) ≤ YOUNG_SIZE
    · simp only [h2, if_true]
      rfl
    · simp only [h2, if_false, gc_alloc_old_internal]
      cases oldOk <;> rfl
  · intro size
    by_cases h1 : heapBytes st.nursery
        + (HDR_SIZE + ALIGN_UP (if size = 0 then 1 else size) SLAB_ALIGN) ≤ YOUNG_SIZE
    · simp only [gc_malloc, h1, if_true]
      apply iff_of_false
      · simp
      · rintro ⟨ha, -, -⟩
        omega
    · by_cases h2 : heapBytes (gc_collect_minor oracle
            { st with total_allocs := st.total_allocs + 1 }).nursery
          + (HDR_SIZE + ALIGN_UP (if size = 0 then 1 else size) SLAB_ALIGN) ≤ YOUNG_SIZE
      · simp only [gc_malloc, h1, if_false, h2, if_true]
        apply iff_of_false
        · simp
        · rintro ⟨-, hb, -⟩
          omega
      · simp only [gc_malloc, h1, if_false, h2, gc_alloc_old_internal]
        cases oldOk with
        | true =>
          apply iff_of_true
          · rfl
          · exact ⟨by omega, by omega, rfl⟩
        | false =>
          apply iff_of_false
          · simp
          · rintro ⟨-, -, hcontra⟩
            exact Bool.false_ne_true hcontra

/-- C6 instantiated at the empty state: a zero-size request behaves as a
one-byte request and is served from the nursery at the first 8-aligned
offset past the header. -/
theorem gc_malloc_contract_inst :
    (∀ o ∈ st0.nursery, o.size % SLAB_ALIGN = 0)
    ∧ gc_malloc [] true st0 0 = gc_malloc [] true st0 1
    ∧ (heapBytes st0.nursery + (HDR_SIZE + ALIGN_UP (if 0 = 0 then 1 else 0) SLAB_ALIGN)
        ≤ YOUNG_SIZE)
    ∧ (gc_malloc [] true st0 0).2 = some (.young (heapBytes st0.nursery + HDR_SIZE)) :=
  ⟨by decide, (gc_malloc_contract [] true st0 (by decide)).1, by decide,
   ((gc_malloc_contract [] true st0 (by decide)).2.2.1 0 (by decide)).2⟩

/-- A chunk of a given capacity sits at a fixed position above a fixed
lower chain: the shape arena_alloc preserves for every chunk below the
head, and in particular for a saved chunk. -/
def SuffixInv (cap : Nat) (tail : List ArenaChunk) (a : Arena) : Prop :=
  ∃ front t, a.chunks = front ++ ⟨cap, t⟩ :: tail

lemma arena_alloc_step (a : Arena) (size cap : Nat) (tail : List ArenaChunk)
    (h : SuffixInv cap tail a) :
    ∃ a' r, arena_alloc true (some a) size = (some a', r)
      ∧ SuffixInv cap tail a' ∧ a'.chunk_size = a.chunk_size := by
  obtain ⟨front, t, hch⟩ := h
  by_cases hs : size = 0
  · exact ⟨a, none, by simp [arena_alloc, hs], ⟨front, t, hch⟩, rfl⟩
  · cases front with
    | nil =>
      simp only [List.nil_append] at hch
      by_cases hfit : t + ALIGN_UP size ARENA_DEFAULT_ALIGN ≤ cap
      · exact ⟨_, _, (by simp [arena_alloc, hs, hch, hfit]; exact ⟨rfl, rfl⟩),
          ⟨[], t + ALIGN_UP size ARENA_DEFAULT_ALIGN, by simp⟩, by rfl⟩
      · exact ⟨_, _,
          (by simp [arena_alloc, hs, hch, hfit, arena_new_chunk]; exact ⟨rfl, rfl⟩),
          ⟨[⟨ALIGN_UP (new_cap_code a.chunk_size (ALIGN_UP size ARENA_DEFAULT_ALIGN)) 4096,
              ALIGN_UP size ARENA_DEFAULT_ALIGN⟩], t, by simp⟩, by rfl⟩
    | cons f fr =>
      simp only [List.cons_append] at hch
      by_cases hfit : f.top + ALIGN_UP size ARENA_DEFAULT_ALIGN ≤ f.cap
      · exact ⟨_, _, (by simp [arena_alloc, hs, hch, hfit]; exact ⟨rfl, rfl⟩),
          ⟨{ f with top := f.top + ALIGN_UP size ARENA_DEFAULT_ALIGN } :: fr, t, by simp⟩,
          by rfl⟩
      · exact ⟨_, _,
          (by simp [arena_alloc, hs, hch, hfit, arena_new_chunk]; exact ⟨rfl, rfl⟩),
          ⟨⟨ALIGN_UP (new_cap_code a.chunk_size (ALIGN_UP size ARENA_DEFAULT_ALIGN)) 4096,
              ALIGN_UP size ARENA_DEFAULT_ALIGN⟩ :: f :: fr, t, by simp⟩, by rfl⟩

lemma arena_allocs_run (sizes : List Nat) :
    ∀ (a : Arena) (cap : Nat) (tail : List ArenaChunk), SuffixInv cap tail a →
    ∃ a2 rs, arena_allocs (some a) sizes = (some a2, rs)
      ∧ SuffixInv cap tail a2 ∧ a2.chunk_size = a.chunk_size := by
  induction sizes with
  | nil =>
    intro a cap tail h
    exact ⟨a, [], rfl, h, rfl⟩
  | cons s rest ih =>
    intro a cap tail h
    obtain ⟨a1, r, heq, h1, hcs⟩ := arena_alloc_step a s cap tail h
    obtain ⟨a2, rs, heq2, h2, hcs2⟩ := ih a1 cap tail h1
    refine ⟨a2, r :: rs, ?_, h2, hcs2.trans hcs⟩
    simp [arena_allocs, heq, heq2]

lemma arena_alloc_congr (a b : Arena) (hch : a.chunks = b.chunks)
    (hcs : a.chunk_size = b.chunk_size) (size : Nat) :
    (arena_alloc true (some a) size).2 = (arena_alloc true (some b) size).2
    ∧ (arena_alloc true (some a) size).1.map Arena.chunks
        = (arena_alloc true (some b) size).1.map Arena.chunks
    ∧ (arena_alloc true (some a) size).1.map Arena.chunk_size
        = (arena_alloc true (some b) size).1.map Arena.chunk_size := by
  by_cases hs : size = 0
  · simp [arena_alloc, hs, hch, hcs]
  · simp only [arena_alloc, hs, if_false, hch, hcs]
    cases hb : b.chunks with
    | nil => simp
    | cons c rest =>
      by_cases hfit : c.top + ALIGN_UP size ARENA_DEFAULT_ALIGN ≤ c.cap
      · simp [hfit, hch, hcs]
      · simp [hfit, arena_new_chunk, hch, hcs]

lemma arena_allocs_congr (sizes : List Nat) :
    ∀ (a b : Arena), a.chunks = b.chunks → a.chunk_size = b.chunk_size →
    (arena_allocs (some a) sizes).2 = (arena_allocs (some b) sizes).2 := by
  induction sizes with
  | nil =>
    intro a b hch hcs
    rfl
  | cons s rest ih =>
    intro a b hch hcs
    obtain ⟨hr, hmapch, hmapcs⟩ := arena_alloc_congr a b hch hcs s
    simp only [arena_allocs]
    cases ha1 : (arena_alloc true (some a) s).1 with
    | none =>
      cases hb1 : (arena_alloc true (some b) s).1 with
      | none => rw [hr]
      | some x =>
        rw [ha1, hb1] at hmapch
        simp at hmapch
    | some a1 =>
      cases hb1 : (arena_alloc true (some b) s).1 with
      | none =>
        rw [ha1, hb1] at hmapch
        simp at hmapch
      | some b1 =>
        rw [ha1, hb1] at hmapch hmapcs
        simp only [Option.map_some', Option.some.injEq] at hmapch hmapcs
        rw [hr, ih a1 b1 hmapch hmapcs]

/-- C8: from a savepoint taken on an arena whose head chunk is c, any
sequence of allocations followed by restore releases exactly the chunks
pushed above c, makes c the head again with its cursor rewound to the
saved offset — the chunk chain is exactly the one captured — and
replaying the identical sequence of allocation sizes yields exactly the
same pointers (same chunk positions and byte offsets) as the first
run. -/
theorem arena_savepoint_roundtrip (a : Arena) (c : ArenaChunk)
    (rest : List ArenaChunk) (sizes : List Nat) (hc : a.chunks = c :: rest) :
    ∃ a2 rs, arena_allocs (some a) sizes = (some a2, rs)
      ∧ arena_restore (some a2) (arena_save (some a))
          = some { a2 with chunks := c :: rest }
      ∧ (arena_allocs (some { a2 with chunks := c :: rest }) sizes).2 = rs := by
  have hsp : arena_save (some a) = some (rest.length + 1, c.top) := by
    simp [arena_save, hc]
  have hinv : SuffixInv c.cap rest a := ⟨[], c.top, by simpa using hc⟩
  obtain ⟨a2, rs, hrun, hinv2, hcs⟩ := arena_allocs_run sizes a c.cap rest hinv
  obtain ⟨front, t, hch2⟩ := hinv2
  have hlen : a2.chunks.length - (rest.length + 1) = front.length := by
    simp [hch2]
  have hdrop : a2.chunks.drop (a2.chunks.length - (rest.length + 1))
      = ⟨c.cap, t⟩ :: rest := by
    rw [hlen, hch2, List.drop_left]
  have hrest : arena_restore (some a2) (arena_save (some a))
      = some { a2 with chunks := c :: rest } := by
    rw [hsp]
    simp only [arena_restore, hdrop]
  refine ⟨a2, rs, hrun, hrest, ?_⟩
  have hrepeat := arena_allocs_congr sizes { a2 with chunks := c :: rest } a
    (by simp [hc]) (by simp [hcs])
  rw [hrepeat, hrun]

/-- C8 instantiated at a freshly initialized 4096-byte arena and a
three-allocation sequence that overflows into a second chunk. -/
theorem arena_savepoint_roundtrip_inst :
    (arena_init true 4096).chunks = ⟨4096, 0⟩ :: []
    ∧ ∃ a2 rs, arena_allocs (some (arena_init true 4096)) [8, 4096, 8] = (some a2, rs)
      ∧ arena_restore (some a2) (arena_save (some (arena_init true 4096)))
          = some { a2 with chunks := ⟨4096, 0⟩ :: [] }
      ∧ (arena_allocs (some { a2 with chunks := ⟨4096, 0⟩ :: [] }) [8, 4096, 8]).2 = rs :=
  ⟨rfl, arena_savepoint_roundtrip (arena_init true 4096) ⟨4096, 0⟩ [] [8, 4096, 8] rfl⟩

/-- C9: arena_reset leaves exactly one chunk, the first chunk fixed at
initialization, with its cursor rewound to base (so the usable remaining
capacity equals that chunk's full capacity, and chunkCount is 1), and a
following allocation whose 8-aligned size fits that capacity is served by
the bump path with the same result whether or not the operating system
could provide memory — no new chunk is acquired and the chunk count stays
1. -/
theorem arena_reset_correct (a : Arena) (f : ArenaChunk)
    (hf : a.chunks.getLast? = some f) :
    arena_reset (some a)
      = some { a with
                 chunks := [⟨f.cap, 0⟩]
                 total_allocs := 0
                 total_bytes := 0 }
    ∧ (∀ (mmapOk : Bool) (size : Nat), size ≠ 0 →
        ALIGN_UP size ARENA_DEFAULT_ALIGN ≤ f.cap →
        arena_alloc mmapOk (arena_reset (some a)) size
          = (some { a with
                      chunks := [⟨f.cap, ALIGN_UP size ARENA_DEFAULT_ALIGN⟩]
                      total_allocs := 1
                      total_bytes := ALIGN_UP size ARENA_DEFAULT_ALIGN },
             some (0, 0))) := by
  have hreset : arena_reset (some a)
      = some { a with
                 chunks := [⟨f.cap, 0⟩]
                 total_allocs := 0
                 total_bytes := 0 } := by
    simp [arena_reset, hf]
  refine ⟨hreset, ?_⟩
  intro mmapOk size hsz hfit
  rw [hreset]
  have hfit0 : (0 : Nat) + ALIGN_UP size ARENA_DEFAULT_ALIGN ≤ f.cap := by omega
  simp [arena_alloc, hsz, hfit0]
  intro hcon
  exact absurd hfit (by omega)

/-- C9 instantiated at a two-chunk arena whose first chunk has capacity
4096, with an 8-byte allocation after the reset. -/
theorem arena_reset_correct_inst :
    (⟨[⟨8192, 100⟩, ⟨4096, 4096⟩], 4096, 5, 7⟩ : Arena).chunks.getLast?
        = some ⟨4096, 4096⟩
    ∧ arena_alloc false (arena_reset (some ⟨[⟨8192, 100⟩, ⟨4096, 4096⟩], 4096, 5, 7⟩)) 8
        = (some { (⟨[⟨8192, 100⟩, ⟨4096, 4096⟩], 4096, 5, 7⟩ : Arena) with
                    chunks := [⟨4096, ALIGN_UP 8 ARENA_DEFAULT_ALIGN⟩]
                    total_allocs := 1
                    total_bytes := ALIGN_UP 8 ARENA_DEFAULT_ALIGN },
           some (0, 0)) :=
  ⟨rfl, (arena_reset_correct ⟨[⟨8192, 100⟩, ⟨4096, 4096⟩], 4096, 5, 7⟩ ⟨4096, 4096⟩
      rfl).2 false 8 (by decide) (by decide)⟩

end HackerLang
